import Mathlib

/-!
Shallow embedding of the operations demonstrated by the two notebooks of
the scientific-python-workshop repository: the NumPy array operations of
"Introduction to NumPy.ipynb" (typed element assignment, 1-d broadcasting,
binary serialization, axis summation) and the PyMC model functions of
"Model Building with PyMC.ipynb" (switchpoint log-probability and random
variate, rate evaluation, rate-constraint potential).

Machine floats are modelled by rationals (every value appearing in the
notebooks is exactly representable), Python ints by integers, and the
float negative infinity returned by log-probability functions by a
dedicated constructor; `-np.log q` is kept symbolic as `LogpVal.negLog q`.
-/

set_option maxRecDepth 20000

instance {ε α : Type} [DecidableEq ε] [DecidableEq α] : DecidableEq (Except ε α) := fun x y =>
  match x, y with
  | .ok a, .ok b =>
      if h : a = b then isTrue (by rw [h]) else isFalse (fun hh => h (Except.ok.inj hh))
  | .error e, .error f =>
      if h : e = f then isTrue (by rw [h]) else isFalse (fun hh => h (Except.error.inj hh))
  | .ok _, .error _ => isFalse (fun hh => Except.noConfusion hh)
  | .error _, .ok _ => isFalse (fun hh => Except.noConfusion hh)

/-- The element dtypes an array of the notebooks carries: `np.arange`
produces an integer array, `np.ones`/`np.zeros` float arrays. -/
inductive DType
  | tint
  | tfloat
  deriving DecidableEq, Repr

/-- A Python scalar value that the notebooks assign into an array. -/
inductive PyVal
  | vint (n : ℤ)
  | vfloat (q : ℚ)
  | vstr (s : String)
  deriving DecidableEq, Repr

/-- Python `int(q)` on a float: truncation toward zero. -/
def ratTrunc (q : ℚ) : ℤ :=
  if 0 ≤ q then ⌊q⌋ else ⌈q⌉

/-- Is `c` a decimal digit. -/
def isDigitChar (c : Char) : Bool :=
  48 ≤ c.toNat && c.toNat ≤ 57

/-- Parse a non-empty all-digit character list as a natural number. -/
def parseNatDigits (cs : List Char) : Option ℕ :=
  match cs with
  | [] => none
  | _ => cs.foldl (fun acc c =>
      acc.bind fun n => if isDigitChar c then some (10 * n + (c.toNat - 48)) else none)
      (some 0)

/-- Python `int(s)` on a string: an optional sign followed by digits, else
a `ValueError`, signalled here by `none`. -/
def parseIntStr (s : String) : Option ℤ :=
  match s.data with
  | '-' :: cs => (parseNatDigits cs).map (fun n => -(n : ℤ))
  | cs => (parseNatDigits cs).map (fun n => (n : ℤ))

/-- Coercion of a value to the element dtype of an array, as NumPy does on
`arr[i] = v`.  A string must parse as a numeric literal of the dtype,
otherwise the assignment raises; the notebooks only exercise the integer
path, so the string-to-float path accepts integer literals. -/
def coerceTo (d : DType) (v : PyVal) : Except String PyVal :=
  match d, v with
  | .tint, .vint n => .ok (.vint n)
  | .tint, .vfloat q => .ok (.vint (ratTrunc q))
  | .tint, .vstr s =>
      match parseIntStr s with
      | some n => .ok (.vint n)
      | none => .error "invalid literal for int() with base 10"
  | .tfloat, .vint n => .ok (.vfloat n)
  | .tfloat, .vfloat q => .ok (.vfloat q)
  | .tfloat, .vstr s =>
      match parseIntStr s with
      | some n => .ok (.vfloat n)
      | none => .error "could not convert string to float"

/-- A NumPy 1-d array: a fixed dtype together with its elements. -/
structure NpArray where
  dtype : DType
  data : List PyVal
  deriving DecidableEq, Repr

/-- `np.arange n`: the integer array `[0, 1, ..., n-1]`. -/
def npArange (n : ℕ) : NpArray :=
  ⟨.tint, (List.range n).map (fun i => .vint i)⟩

/-- `arr[i] = v`: coerce `v` to the array's dtype and store it; the dtype
itself never changes.  An inconvertible value raises. -/
def setItem (a : NpArray) (i : ℕ) (v : PyVal) : Except String NpArray :=
  match coerceTo a.dtype v with
  | .error e => .error e
  | .ok w => .ok ⟨a.dtype, a.data.set i w⟩

/-- The state of the name `arr` after executing the statement
`arr[i] = v` in a cell: on an exception the binding is untouched. -/
def setItemStmt (a : NpArray) (i : ℕ) (v : PyVal) : NpArray :=
  match setItem a i v with
  | .ok b => b
  | .error _ => a

/-- C1: assigning the string `'a string inside an array'` to element 0 of
the integer array `np.arange 1000` raises an error, and the array (dtype
and contents) is unchanged by the failed assignment. -/
theorem arange_string_assignment_raises :
    setItem (npArange 1000) 0 (.vstr "a string inside an array") =
      Except.error "invalid literal for int() with base 10" ∧
    setItemStmt (npArange 1000) 0 (.vstr "a string inside an array") = npArange 1000 ∧
    (setItemStmt (npArange 1000) 0 (.vstr "a string inside an array")).dtype =
      (npArange 1000).dtype := by
  refine ⟨rfl, rfl, rfl⟩

theorem ratTrunc_1234_div_1000 : ratTrunc (1234/1000) = 1 := by
  unfold ratTrunc
  rw [if_pos (by norm_num)]
  exact Int.floor_eq_iff.mpr (by norm_num)

/-- C3: element assignment never changes an array's dtype, and a
convertible value is coerced: storing the float `1.234` into the integer
array `np.arange 1000` stores the integer `1` at index 0. -/
theorem dtype_fixed_on_assignment (a : NpArray) (i : ℕ) (v : PyVal) (b : NpArray)
    (h : setItem a i v = Except.ok b) :
    b.dtype = a.dtype ∧
    setItemStmt (npArange 1000) 0 (.vfloat (1234/1000)) =
      ⟨.tint, (npArange 1000).data.set 0 (.vint 1)⟩ := by
  refine ⟨?_, by simp [setItemStmt, setItem, coerceTo, npArange, ratTrunc_1234_div_1000]⟩
  unfold setItem at h
  cases hc : coerceTo a.dtype v with
  | error e => rw [hc] at h; exact absurd h (by simp)
  | ok w =>
    rw [hc] at h
    cases h
    rfl

theorem dtype_fixed_on_assignment_witness :
    (⟨DType.tint, (npArange 4).data.set 0 (PyVal.vint 1)⟩ : NpArray).dtype = (npArange 4).dtype ∧
    setItemStmt (npArange 1000) 0 (PyVal.vfloat (1234/1000)) =
      ⟨DType.tint, (npArange 1000).data.set 0 (PyVal.vint 1)⟩ :=
  dtype_fixed_on_assignment (npArange 4) 0 (PyVal.vfloat (1234/1000))
    ⟨DType.tint, (npArange 4).data.set 0 (PyVal.vint 1)⟩
    (by simp [setItem, coerceTo, npArange, ratTrunc_1234_div_1000])

/-- The first sample array of the "Array Operations" section:
`sample1 = np.array([632, 1638, 569, 115])`. -/
def sample1 : List ℤ := [632, 1638, 569, 115]

/-- Elementwise addition of two 1-d arrays under NumPy's broadcasting
rule: equal lengths add componentwise, a length-1 operand is stretched to
the other's length, and any other combination of lengths raises. -/
def broadcastAdd {α : Type} [Add α] (xs ys : List α) : Except String (List α) :=
  if xs.length = ys.length then .ok (List.zipWith (· + ·) xs ys)
  else
    match xs, ys with
    | [x], ys => .ok (ys.map (fun y => x + y))
    | xs, [y] => .ok (xs.map (fun x => x + y))
    | _, _ => .error "operands could not be broadcast together"

/-- C2: adding two 1-d arrays whose lengths are neither equal nor 1
raises the incompatible-shapes exception and yields no result array; in
particular `sample1 + np.array([7, 8])` raises. -/
theorem broadcast_shape_mismatch_raises (xs ys : List ℤ)
    (h1 : xs.length ≠ ys.length) (h2 : xs.length ≠ 1) (h3 : ys.length ≠ 1) :
    broadcastAdd xs ys = Except.error "operands could not be broadcast together" ∧
    broadcastAdd sample1 [(7 : ℤ), 8] =
      Except.error "operands could not be broadcast together" := by
  refine ⟨?_, rfl⟩
  unfold broadcastAdd
  rw [if_neg h1]
  rcases xs with _ | ⟨x, xt⟩
  · rcases ys with _ | ⟨y, yt⟩
    · exact absurd rfl h1
    · rcases yt with _ | ⟨y2, yt⟩
      · exact absurd rfl h3
      · rfl
  · rcases xt with _ | ⟨x2, xt⟩
    · exact absurd rfl h2
    · rcases ys with _ | ⟨y, yt⟩
      · rfl
      · rcases yt with _ | ⟨y2, yt⟩
        · exact absurd rfl h3
        · rfl

theorem broadcast_shape_mismatch_raises_witness :
    broadcastAdd sample1 [(7 : ℤ), 8] =
      Except.error "operands could not be broadcast together" :=
  (broadcast_shape_mismatch_raises sample1 [7, 8] (by decide) (by decide) (by decide)).2

/-- `np.ones n` as a float array. -/
def npOnes (n : ℕ) : List ℚ := List.replicate n 1

/-- Scalar times array, elementwise (`1.5*np.ones(4)`). -/
def scalarMul (s : ℚ) (xs : List ℚ) : List ℚ := xs.map (fun x => s * x)

/-- `sample1` promoted to floats, as happens in `sample1 + 1.5`. -/
def sample1Float : List ℚ := sample1.map (fun n => (n : ℚ))

theorem zipWith_add_replicate_len (xs : List ℚ) (s : ℚ) :
    List.zipWith (· + ·) xs (List.replicate xs.length s) = xs.map (fun x => x + s) := by
  induction xs with
  | nil => rfl
  | cons x xt ih => simpa [List.replicate_succ] using ih

theorem broadcastAdd_full_replicate (a : List ℚ) (s : ℚ) :
    broadcastAdd a (List.replicate a.length s) = Except.ok (a.map (fun x => x + s)) := by
  unfold broadcastAdd
  rw [if_pos (by simp), zipWith_add_replicate_len]

theorem broadcastAdd_singleton (a : List ℚ) (s : ℚ) :
    broadcastAdd a [s] = Except.ok (a.map (fun x => x + s)) := by
  rcases a with _ | ⟨x, xt⟩
  · rfl
  · rcases xt with _ | ⟨x2, xt⟩
    · simp [broadcastAdd]
    · unfold broadcastAdd
      rw [if_neg (by simp)]

/-- C5: for every 1-d float array `a` and scalar `s`, broadcasting makes
`a + s` equal to `a + s*np.ones(len a)`; in particular
`sample1 + 1.5 = sample1 + 1.5*np.ones 4` elementwise. -/
theorem scalar_broadcast_eq_ones_broadcast (a : List ℚ) (s : ℚ) :
    broadcastAdd a (scalarMul s (npOnes a.length)) = broadcastAdd a [s] ∧
    broadcastAdd sample1Float (scalarMul (3/2) (npOnes 4)) =
      Except.ok [1267/2, 3279/2, 1141/2, 233/2] ∧
    broadcastAdd sample1Float [3/2] = Except.ok [1267/2, 3279/2, 1141/2, 233/2] := by
  have hlen : sample1Float.length = 4 := by simp [sample1Float, sample1]
  have hmap : sample1Float.map (fun x => x + 3/2) = [1267/2, 3279/2, 1141/2, 233/2] := by
    norm_num [sample1Float, sample1]
  refine ⟨?_, ?_, ?_⟩
  · have hrep : scalarMul s (npOnes a.length) = List.replicate a.length s := by
      simp [scalarMul, npOnes, List.map_replicate]
    rw [hrep, broadcastAdd_full_replicate, broadcastAdd_singleton]
  · have hrep : scalarMul (3/2) (npOnes 4) = List.replicate sample1Float.length (3/2 : ℚ) := by
      simp [scalarMul, npOnes, List.map_replicate, hlen]
    rw [hrep, broadcastAdd_full_replicate, hmap]
  · rw [broadcastAdd_singleton, hmap]

/-- A multidimensional float array: its shape and its row-major flat data. -/
structure NDArr where
  shape : List ℕ
  data : List ℚ
  deriving DecidableEq, Repr

/-- The contents of a `.npy` binary file written by `np.save`: the magic
string, the dtype descriptor, the shape recorded in the header, and the
raw element payload exactly as laid out in memory. -/
structure NpyFile where
  magic : String
  descr : String
  headerShape : List ℕ
  payload : List ℚ
  deriving DecidableEq, Repr

/-- `np.save('test.npy', a)`: binary mode writes the exact in-memory
representation of the data. -/
def npSave (a : NDArr) : NpyFile :=
  ⟨"\x93NUMPY", "<f8", a.shape, a.data⟩

/-- `np.load` of a `.npy` file: rebuild the array from the header shape
and the payload. -/
def npLoad (f : NpyFile) : NDArr :=
  ⟨f.headerShape, f.payload⟩

/-- Elementwise difference of two same-shape arrays (`arr2 - arr2n`). -/
def ndSub (a b : NDArr) : NDArr :=
  ⟨a.shape, List.zipWith (· - ·) a.data b.data⟩

/-- `np.any`: is any element truthy (nonzero). -/
def npAny (a : NDArr) : Bool :=
  a.data.any (fun x => decide (x ≠ 0))

/-- The array saved in the notebook: `arr2 = np.loadtxt('test.out')`,
which holds `np.arange(10).reshape(2, 5)` as floats. -/
def arr2 : NDArr :=
  ⟨[2, 5], [0, 1, 2, 3, 4, 5, 6, 7, 8, 9]⟩

theorem any_zipWith_sub_self (l : List ℚ) :
    (List.zipWith (· - ·) l l).any (fun x => decide (x ≠ 0)) = false := by
  induction l with
  | nil => rfl
  | cons x xt ih => simp [ih]

/-- C4: the binary `.npy` round trip is lossless: for every array `a`,
`np.load` after `np.save` returns an array equal to `a`, and in
particular for the notebook's `arr2` the check `np.any(arr2 - arr2n)` is
`False`. -/
theorem npy_save_load_roundtrip (a : NDArr) :
    npLoad (npSave a) = a ∧
    npAny (ndSub a (npLoad (npSave a))) = false ∧
    npLoad (npSave arr2) = arr2 ∧
    npAny (ndSub arr2 (npLoad (npSave arr2))) = false := by
  refine ⟨rfl, ?_, rfl, ?_⟩
  · simp [npAny, ndSub, npLoad, npSave, any_zipWith_sub_self a.data]
  · simp [npAny, ndSub, npLoad, npSave, any_zipWith_sub_self arr2.data]

/-- `np.zeros sh`: the all-zero float array of shape `sh`. -/
def npZeros (sh : List ℕ) : NDArr :=
  ⟨sh, List.replicate sh.prod 0⟩

/-- `.sum(k)`: sum a multidimensional array along axis `k`, consuming
dimension `k` of its shape.  The flat data is viewed as an
`outer × axisLen × inner` block in row-major order. -/
def sumAxis (a : NDArr) (k : ℕ) : NDArr :=
  let outer := (a.shape.take k).prod
  let axisLen := (a.shape.drop k).headD 1
  let inner := (a.shape.drop (k + 1)).prod
  ⟨a.shape.take k ++ a.shape.drop (k + 1),
   ((List.range outer).map (fun o =>
      (List.range inner).map (fun i =>
        ((List.range axisLen).map (fun j =>
          a.data.getD ((o * axisLen + j) * inner + i) 0)).sum))).flatten⟩

theorem getD_replicate_zero (n i : ℕ) : (List.replicate n (0 : ℚ)).getD i 0 = 0 := by
  induction n generalizing i with
  | zero => rfl
  | succ n ih =>
    cases i with
    | zero => rfl
    | succ i => simp [List.replicate_succ, ih i]

theorem map_const_eq_replicate {α β : Type} (l : List α) (c : β) :
    l.map (fun _ => c) = List.replicate l.length c := by
  induction l with
  | nil => rfl
  | cons x xt ih => simp [ih, List.replicate_succ]

theorem flatten_replicate_zero_blocks (m n : ℕ) :
    (List.replicate m (List.replicate n (0 : ℚ))).flatten = List.replicate (m * n) 0 := by
  induction m with
  | zero => simp
  | succ m ih =>
    rw [List.replicate_succ, List.flatten_cons, ih,
      show (m + 1) * n = n + m * n by ring, List.replicate_add]

theorem sumAxis_zeros_data (sh : List ℕ) (k : ℕ) :
    (sumAxis (npZeros sh) k).data =
      List.replicate ((sh.take k).prod * (sh.drop (k + 1)).prod) 0 := by
  have hz : ∀ o i : ℕ,
      ((List.range ((sh.drop k).headD 1)).map (fun j =>
        (npZeros sh).data.getD ((o * (sh.drop k).headD 1 + j) * (sh.drop (k + 1)).prod + i) 0)).sum
        = 0 := by
    intro o i
    apply List.sum_eq_zero
    intro x hx
    rcases List.mem_map.mp hx with ⟨j, _, rfl⟩
    exact getD_replicate_zero _ _
  show ((List.range ((sh.take k).prod)).map (fun o =>
      (List.range ((sh.drop (k + 1)).prod)).map (fun i =>
        ((List.range ((sh.drop k).headD 1)).map (fun j =>
          (npZeros sh).data.getD ((o * (sh.drop k).headD 1 + j) * (sh.drop (k + 1)).prod + i) 0)).sum))).flatten
      = _
  calc ((List.range ((sh.take k).prod)).map (fun o =>
      (List.range ((sh.drop (k + 1)).prod)).map (fun i =>
        ((List.range ((sh.drop k).headD 1)).map (fun j =>
          (npZeros sh).data.getD ((o * (sh.drop k).headD 1 + j) * (sh.drop (k + 1)).prod + i) 0)).sum))).flatten
      = ((List.range ((sh.take k).prod)).map (fun _ =>
          List.replicate ((sh.drop (k + 1)).prod) (0 : ℚ))).flatten := by
        congr 1
        apply List.map_congr_left
        intro o _
        rw [show (List.range ((sh.drop (k + 1)).prod)).map (fun i =>
            ((List.range ((sh.drop k).headD 1)).map (fun j =>
              (npZeros sh).data.getD ((o * (sh.drop k).headD 1 + j) * (sh.drop (k + 1)).prod + i) 0)).sum)
            = (List.range ((sh.drop (k + 1)).prod)).map (fun _ => (0 : ℚ)) from
          List.map_congr_left (fun i _ => hz o i)]
        simp [map_const_eq_replicate]
    _ = List.replicate ((sh.take k).prod * (sh.drop (k + 1)).prod) 0 := by
        rw [map_const_eq_replicate, List.length_range, flatten_replicate_zero_blocks]

/-- C10: summing along axis `k` consumes exactly dimension `k` of the
shape; for the all-zero array of shape `(3,4,5,6)`, `.sum(2)` has shape
`(3,4,6)` and all `72` of its elements are `0`. -/
theorem zeros_sum_axis_consumes (sh : List ℕ) (k : ℕ) :
    (sumAxis (npZeros sh) k).shape = sh.take k ++ sh.drop (k + 1) ∧
    (sumAxis (npZeros [3, 4, 5, 6]) 2).shape = [3, 4, 6] ∧
    (sumAxis (npZeros [3, 4, 5, 6]) 2).data = List.replicate 72 0 := by
  refine ⟨rfl, rfl, ?_⟩
  rw [sumAxis_zeros_data]
  norm_num

/-- A value returned by a PyMC log-probability function: the float
`-np.inf`, the symbolic `-np.log q`, or a finite literal. -/
inductive LogpVal
  | negInf
  | negLog (q : ℚ)
  | fin (q : ℚ)
  deriving DecidableEq, Repr

/-- The decorator-interface log-probability of `switchpoint`:
`@pm.stochastic def switchpoint(value, t_l, t_h)`. -/
def switchpoint (value t_l t_h : ℚ) : LogpVal :=
  if value > t_h ∨ value < t_l then .negInf else .negLog (t_h - t_l + 1)

/-- The direct-interface log-probability function `switchpoint_logp`. -/
def switchpoint_logp (value t_l t_h : ℚ) : LogpVal :=
  if value > t_h ∨ value < t_l then .negInf else .negLog (t_h - t_l + 1)

/-- `np.round`: round half to even (banker's rounding). -/
def npRound (q : ℚ) : ℤ :=
  if q - (⌊q⌋ : ℚ) = 1/2 then (if ⌊q⌋ % 2 = 0 then ⌊q⌋ else ⌊q⌋ + 1)
  else ⌊q + 1/2⌋

/-- The random-variate function `switchpoint_rand`, with the draw
`np.random.random()` made an explicit argument `r`:
`np.round((t_l - t_h) * r) + t_l`. -/
def switchpoint_rand (t_l t_h r : ℚ) : ℚ :=
  (npRound ((t_l - t_h) * r) : ℚ) + t_l

/-- The decorator-interface factor potential `rate_constraint`. -/
def rate_constraint (l1 l2 : ℚ) : LogpVal :=
  if |l2 - l1| > 1 then .negInf else .fin 0

/-- The direct-interface log-probability function `rate_constraint_logp`. -/
def rate_constraint_logp (l1 l2 : ℚ) : LogpVal :=
  if |l2 - l1| > 1 then .negInf else .fin 0

/-- NumPy slice assignment `value[:s] = e` on a 1-d array (the upper
bound is clamped to the array's length). -/
def setTo (xs : List ℚ) (s : ℕ) (e : ℚ) : List ℚ :=
  match xs, s with
  | [], _ => []
  | xs, 0 => xs
  | _ :: xt, Nat.succ s => e :: setTo xt s e

/-- NumPy slice assignment `value[s:] = l` on a 1-d array. -/
def setFrom (xs : List ℚ) (s : ℕ) (l : ℚ) : List ℚ :=
  match xs, s with
  | [], _ => []
  | xs, 0 => xs.map (fun _ => l)
  | x :: xt, Nat.succ s => x :: setFrom xt s l

/-- The direct-interface evaluation function of the deterministic `rate`:
`value = np.zeros(111); value[:s] = e; value[s:] = l`. -/
def rate_eval (s : ℕ) (e l : ℚ) : List ℚ :=
  setFrom (setTo (List.replicate 111 0) s e) s l

theorem setTo_length (xs : List ℚ) (s : ℕ) (e : ℚ) :
    (setTo xs s e).length = xs.length := by
  induction xs generalizing s with
  | nil => cases s <;> rfl
  | cons x xt ih => cases s with
    | zero => rfl
    | succ s => simpa [setTo] using ih s

theorem setFrom_length (xs : List ℚ) (s : ℕ) (l : ℚ) :
    (setFrom xs s l).length = xs.length := by
  induction xs generalizing s with
  | nil => cases s <;> rfl
  | cons x xt ih => cases s with
    | zero => simp [setFrom]
    | succ s => simpa [setFrom] using ih s

theorem getD_map_const (xs : List ℚ) (c : ℚ) (i : ℕ) (hi : i < xs.length) :
    (xs.map (fun _ => c)).getD i 0 = c := by
  induction xs generalizing i with
  | nil => simp at hi
  | cons x xt ih =>
    cases i with
    | zero => rfl
    | succ i => simpa using ih i (by simpa using hi)

theorem getD_setFrom_setTo (xs : List ℚ) (s i : ℕ) (e l : ℚ) (hi : i < xs.length) :
    (setFrom (setTo xs s e) s l).getD i 0 = if i < s then e else l := by
  induction xs generalizing s i with
  | nil => simp at hi
  | cons x xt ih =>
    cases s with
    | zero =>
      simp only [setTo, setFrom, Nat.not_lt_zero, if_neg]
      exact getD_map_const _ _ _ (by simpa using hi)
    | succ s =>
      cases i with
      | zero => simp [setTo, setFrom]
      | succ i =>
        simp only [setTo, setFrom, List.getD_cons_succ, Nat.succ_lt_succ_iff]
        exact ih s i (by simpa using hi)

/-- C6: `rate_eval s e l` is entirely determined by its parents: for
`0 ≤ s ≤ 111` it returns a length-111 array whose entries below index `s`
all equal `e` and whose entries from index `s` on all equal `l`. -/
theorem rate_eval_piecewise (s : ℕ) (e l : ℚ) (_hs : s ≤ 111) :
    (rate_eval s e l).length = 111 ∧
    ∀ i, i < 111 → (rate_eval s e l).getD i 0 = if i < s then e else l := by
  constructor
  · simp [rate_eval, setFrom_length, setTo_length]
  · intro i hi
    exact getD_setFrom_setTo (List.replicate 111 0) s i e l (by simpa using hi)

theorem rate_eval_piecewise_witness :
    (rate_eval 50 2 3).length = 111 ∧
    (rate_eval 50 2 3).getD 10 0 = 2 ∧
    (rate_eval 50 2 3).getD 60 0 = 3 := by
  refine ⟨(rate_eval_piecewise 50 2 3 (by decide)).1, ?_, ?_⟩
  · have h := (rate_eval_piecewise 50 2 3 (by decide)).2 10 (by decide)
    simpa using h
  · have h := (rate_eval_piecewise 50 2 3 (by decide)).2 60 (by decide)
    simpa using h

/-- C7: the factor potential `rate_constraint` is the same function in
the decorator and direct definitions, returning log-probability `0` when
`|l2 - l1| ≤ 1` and `-inf` when `|l2 - l1| > 1`. -/
theorem rate_constraint_spec (l1 l2 : ℚ) :
    rate_constraint l1 l2 = rate_constraint_logp l1 l2 ∧
    (|l2 - l1| ≤ 1 →
      rate_constraint l1 l2 = LogpVal.fin 0 ∧ rate_constraint_logp l1 l2 = LogpVal.fin 0) ∧
    (|l2 - l1| > 1 →
      rate_constraint l1 l2 = LogpVal.negInf ∧ rate_constraint_logp l1 l2 = LogpVal.negInf) := by
  refine ⟨rfl, fun h => ?_, fun h => ?_⟩
  · constructor <;> simp [rate_constraint, rate_constraint_logp, not_lt.mpr h]
  · constructor <;> simp [rate_constraint, rate_constraint_logp, h]

theorem rate_constraint_spec_witness :
    rate_constraint 0 (1/2) = LogpVal.fin 0 ∧ rate_constraint_logp 0 5 = LogpVal.negInf := by
  constructor
  · exact ((rate_constraint_spec 0 (1/2)).2.1 (by rw [sub_zero, abs_of_nonneg] <;> norm_num)).1
  · exact ((rate_constraint_spec 0 5).2.2 (by rw [sub_zero, abs_of_nonneg] <;> norm_num)).2

/-- C9: the decorator-interface log-probability of `switchpoint` and the
direct-interface `switchpoint_logp` are equal as functions: both return
`-inf` when `value > t_h` or `value < t_l` and `-log(t_h - t_l + 1)`
otherwise. -/
theorem switchpoint_logp_equal (value t_l t_h : ℚ) :
    switchpoint value t_l t_h = switchpoint_logp value t_l t_h ∧
    ((value > t_h ∨ value < t_l) →
      switchpoint value t_l t_h = LogpVal.negInf ∧
      switchpoint_logp value t_l t_h = LogpVal.negInf) ∧
    (¬(value > t_h ∨ value < t_l) →
      switchpoint value t_l t_h = LogpVal.negLog (t_h - t_l + 1) ∧
      switchpoint_logp value t_l t_h = LogpVal.negLog (t_h - t_l + 1)) := by
  refine ⟨rfl, fun h => ?_, fun h => ?_⟩
  · constructor <;> simp [switchpoint, switchpoint_logp, h]
  · constructor <;> simp [switchpoint, switchpoint_logp, h]

theorem switchpoint_logp_equal_witness :
    switchpoint 1900 1851 1962 = switchpoint_logp 1900 1851 1962 ∧
    switchpoint 2000 1851 1962 = LogpVal.negInf :=
  ⟨(switchpoint_logp_equal 1900 1851 1962).1,
   ((switchpoint_logp_equal 2000 1851 1962).2.1 (Or.inl (by norm_num))).1⟩

/-- C8 (refuted, code bug): for `t_l = 1851`, `t_h = 1962` and the draw
`r = 1/2 ∈ [0, 1)`, `switchpoint_rand` returns `1795`, which lies below
`t_l` — outside the support `[t_l, t_h]` — so `switchpoint_logp` of the
returned value is `-inf`, not finite.  The code computes
`np.round((t_l - t_h) * r) + t_l`, whose range is `[2*t_l - t_h, t_l]`,
instead of the intended `np.round((t_h - t_l) * r) + t_l`. -/
theorem switchpoint_rand_escapes_support :
    (0 : ℚ) ≤ 1/2 ∧ (1/2 : ℚ) < 1 ∧
    switchpoint_rand 1851 1962 (1/2) = 1795 ∧
    switchpoint_rand 1851 1962 (1/2) < 1851 ∧
    switchpoint_logp (switchpoint_rand 1851 1962 (1/2)) 1851 1962 = LogpVal.negInf := by
  have h1 : ((1851 : ℚ) - 1962) * (1/2) = -111/2 := by norm_num
  have hf : ⌊(-111/2 : ℚ)⌋ = -56 := Int.floor_eq_iff.mpr (by norm_num)
  have h2 : npRound (-111/2) = -56 := by
    unfold npRound
    rw [hf, if_pos (by norm_num), if_pos (by decide)]
  have h3 : switchpoint_rand 1851 1962 (1/2) = 1795 := by
    unfold switchpoint_rand
    rw [h1, h2]
    norm_num
  refine ⟨by norm_num, by norm_num, h3, by rw [h3]; norm_num, ?_⟩
  rw [h3]
  unfold switchpoint_logp
  rw [if_pos (Or.inr (by norm_num))]
